import Mathlib

/-!
Verification of the `effect` library (src/effect/__init__.py and
src/effect/twisted.py): a shallow embedding of the Effect value, the
callback-chain walking engine (`perform` / `_run_callbacks` / `_guard`),
the default dispatcher (`dispatch_method` / `default_dispatcher`), the
result box (`_Box`), and the relevant branch of `twisted_dispatcher`.

Python values are deep-embedded as the inductive type `Obj`: the engine
treats values opaquely except for the exact-type test `type(value) is
Effect`, so a small universe of representative objects (integers, inert
objects, performer objects, exception objects, exc_info tuples, Effect
instances, instances of a proper Effect subclass, and callback functions)
is enough to express every behaviour the engine exhibits.

The trampoline lives in `effect/continuation.py`, which is not part of the
two source files; following the specification it is modelled as an
iterative loop over bounced steps (`run`), fuel-indexed so that every
function is total and executable.
-/

set_option maxRecDepth 2000

namespace EffectSpec

/-- Deep embedding of the Python objects the engine can encounter.

* `int`, `plain` — inert values; `plain tag` is an arbitrary object with no
  `perform_effect` attribute (so the default dispatcher has no handler for
  it when used as an intent).
* `perfSucceed v` / `perfFail einfo` / `perfRaise e` — intent objects whose
  `perform_effect(dispatcher, box)` method respectively calls
  `box.succeed(v)`, calls `box.fail(einfo)` (with `einfo` an exc_info
  tuple), or raises `e`.
* `excInfo e` — a `sys.exc_info()` tuple carrying exception object `e`.
* `effect intent callbacks` — an object of type exactly `Effect`.
* `effectSub intent callbacks` — an instance of a proper subclass of
  `Effect` (same attributes, different concrete type, so the engine's
  `type(value) is Effect` test is false for it).
* `cbConst` / `cbId` / `cbAddInt` / `cbRaise` — representative callback
  functions: return a constant, return the argument, add an integer to an
  integer argument, raise.
* `typeError`, `noEffectHandlerError intent`, `userError tag` — exception
  objects; `NoEffectHandlerError` carries the unhandled intent, as in the
  source.
* `parallelEffects effects` — a `ParallelEffects` intent (it has no
  `perform_effect` method). -/
inductive Obj : Type where
  | int (n : Int) : Obj
  | plain (tag : Nat) : Obj
  | perfSucceed (v : Obj) : Obj
  | perfFail (einfo : Obj) : Obj
  | perfRaise (e : Obj) : Obj
  | excInfo (e : Obj) : Obj
  | effect (intent : Obj) (callbacks : List (Option Obj × Option Obj)) : Obj
  | effectSub (intent : Obj) (callbacks : List (Option Obj × Option Obj)) : Obj
  | cbConst (v : Obj) : Obj
  | cbId : Obj
  | cbAddInt (n : Int) : Obj
  | cbRaise (e : Obj) : Obj
  | typeError : Obj
  | noEffectHandlerError (intent : Obj) : Obj
  | userError (tag : Nat) : Obj
  | parallelEffects (effects : List Obj) : Obj
  deriving Repr

/-- A callback-chain entry: the `(success, error)` pair appended by
`Effect.on`; `none` models Python `None`. -/
abbrev CbPair := Option Obj × Option Obj

/-- The Python exact-type test `type(value) is Effect` used at the top of
`_run_callbacks` (src/effect/__init__.py line 211): true only for direct
`Effect` instances, not for subclass instances. -/
def isExactEffect : Obj → Bool
  | .effect _ _ => true
  | _ => false

/-- Attribute access `x.intent`; in the engine and the combinators it is
only ever applied to `Effect` (or Effect-subclass) instances. On any other
object the source would raise `AttributeError`; the default branch is
arbitrary and unused. -/
def intentOf : Obj → Obj
  | .effect i _ => i
  | .effectSub i _ => i
  | v => v

/-- Attribute access `x.callbacks`; same proviso as `intentOf`. -/
def callbacksOf : Obj → List CbPair
  | .effect _ cbs => cbs
  | .effectSub _ cbs => cbs
  | _ => []

/-- `hasattr(intent, 'perform_effect')` (src/effect/__init__.py line 148):
true exactly for the performer objects of the model. `ParallelEffects` has
no `perform_effect` method (source lines 262-281), and neither do inert
values, Effects, callbacks or exceptions. -/
def hasPerformEffect : Obj → Bool
  | .perfSucceed _ => true
  | .perfFail _ => true
  | .perfRaise _ => true
  | _ => false

namespace Effect

/-- `Effect.with_callbacks(intent, callbacks)` (source lines 89-93): a
fresh object of type exactly `Effect` with the given fields. -/
def with_callbacks (intent : Obj) (callbacks : List CbPair) : Obj :=
  .effect intent callbacks

/-- `Effect.on(success, error)` (source lines 119-126): a new Effect with
the same intent and the chain extended by the single entry
`(success, error)`. (`on` is a reserved token in Lean, hence the trailing
underscore.) -/
def on_ (e : Obj) (success error : Option Obj) : Obj :=
  with_callbacks (intentOf e) (callbacksOf e ++ [(success, error)])

/-- `Effect.on_success(callback)` (source lines 95-100). -/
def on_success (e : Obj) (callback : Obj) : Obj :=
  on_ e (some callback) none

/-- `Effect.on_error(callback)` (source lines 102-110). -/
def on_error (e : Obj) (callback : Obj) : Obj :=
  on_ e none (some callback)

/-- `Effect.after(callback)` (source lines 112-117). -/
def after (e : Obj) (callback : Obj) : Obj :=
  on_ e (some callback) (some callback)

end Effect

/-- `parallel(effects)` (source lines 284-291). -/
def parallel (effects : List Obj) : Obj :=
  .effect (.parallelEffects effects) []

/-- `_guard(f, value)` (source lines 234-244): run callback `f` on
`value`, returning `(is_error, result)`; a raised exception is captured as
`(True, sys.exc_info())`.  The four callback shapes cover: normal return
of a constant (possibly an Effect), identity, arithmetic on the argument
(raising `TypeError` on a non-integer), and an unconditional raise.
Calling a non-callable object raises `TypeError`. -/
def _guard (f : Obj) (value : Obj) : Bool × Obj :=
  match f with
  | .cbConst v => (false, v)
  | .cbId => (false, value)
  | .cbAddInt n =>
    match value with
    | .int m => (false, .int (m + n))
    | _ => (true, .excInfo .typeError)
  | .cbRaise e => (true, .excInfo e)
  | _ => (true, .excInfo .typeError)

/-- What a dispatcher call does, abstracting the `_Box` interaction:
either exactly one of `box.succeed` / `box.fail` was invoked, or the
dispatcher raised. -/
inductive DispatchOutcome : Type where
  | succeeded (result : Obj) : DispatchOutcome
  | failed (excinfo : Obj) : DispatchOutcome
  | raised (e : Obj) : DispatchOutcome
  deriving Repr

/-- The body of `intent.perform_effect(default_dispatcher, box)` for the
performer objects of the model (only invoked under `hasPerformEffect`;
the default branch is unreachable). -/
def perform_effect : Obj → DispatchOutcome
  | .perfSucceed v => .succeeded v
  | .perfFail einfo => .failed einfo
  | .perfRaise e => .raised e
  | _ => .raised .typeError

/-- `dispatch_method(intent, dispatcher, box)` (source lines 147-150): if
the intent has a `perform_effect` attribute, invoke it (the source passes
`default_dispatcher` and the box); otherwise raise
`NoEffectHandlerError(intent)` — note: raise, not `box.fail`. -/
def dispatch_method (intent : Obj) : DispatchOutcome :=
  if hasPerformEffect intent then perform_effect intent
  else .raised (.noEffectHandlerError intent)

/-- `default_dispatcher(intent, box)` (source lines 153-158): delegates to
`dispatch_method`. -/
def default_dispatcher (intent : Obj) : DispatchOutcome :=
  dispatch_method intent

/-- A trampoline step of the engine: either `_perform(bouncer, effect)`
(the effect decomposed into its intent and callback chain) or
`_run_callbacks(bouncer, chain, result)`. -/
inductive Task : Type where
  | perf (intent : Obj) (chain : List CbPair) : Task
  | runCbs (chain : List CbPair) (result : Bool × Obj) : Task
  deriving Repr

namespace Box

/-- `_Box.succeed(result)` (source lines 184-188): bounce the box's bound
continuation — here, running the owning effect's callback chain — with
`(False, result)`. -/
def succeed (more : List CbPair) (result : Obj) : Task :=
  .runCbs more (false, result)

/-- `_Box.fail(result)` (source lines 190-195): bounce with
`(True, result)`; `result` is an exc_info tuple. -/
def fail (more : List CbPair) (result : Obj) : Task :=
  .runCbs more (true, result)

end Box

/-- Result of executing one trampoline step: a further step was bounced,
or `_run_callbacks` returned at the end of the chain (the engine holds
`result` at that point but discards it: `perform` returns `None`), or the
step raised an exception, which propagates out of the trampoline. -/
inductive StepRes : Type where
  | next (t : Task) : StepRes
  | finished (result : Bool × Obj) : StepRes
  | raised (e : Obj) : StepRes
  deriving Repr

/-- `_run_callbacks(bouncer, chain, result)` (source lines 209-222),
executed for one step. In source order: (1) if `type(value) is Effect`,
bounce `_perform` on `Effect.with_callbacks(value.intent, value.callbacks
+ chain)`; (2) if the chain is empty, return (discarding the result);
(3) select `chain[0][is_error]`, run it under `_guard` if it is not
`None` (otherwise keep the result unchanged), and bounce `_run_callbacks`
on the rest of the chain. -/
def run_callbacks (chain : List CbPair) (result : Bool × Obj) : StepRes :=
  if isExactEffect result.2 then
    .next (.perf (intentOf result.2) (callbacksOf result.2 ++ chain))
  else
    match chain with
    | [] => .finished result
    | entry :: rest =>
      match (if result.1 then entry.2 else entry.1) with
      | some cb => .next (.runCbs rest (_guard cb result.2))
      | none => .next (.runCbs rest result)

/-- One trampoline step of `perform` with the default dispatcher
(source lines 198-231): a `perf` step runs `_perform`, handing the intent
to the dispatcher whose box interaction becomes the bounced
`_run_callbacks` step; a `runCbs` step runs `_run_callbacks`. -/
def step : Task → StepRes
  | .perf intent chain =>
    match default_dispatcher intent with
    | .succeeded v => .next (Box.succeed chain v)
    | .failed einfo => .next (Box.fail chain einfo)
    | .raised e => .raised e
  | .runCbs chain result => run_callbacks chain result

/-- Modelled from the spec: the trampoline of `effect/continuation.py`
(absent from src/), specified in §4.1 as an iterative loop that executes
the current step and continues with the bounced step until no further
bounce is scheduled; an exception raised by a step propagates out. `fuel`
bounds the number of iterations so the model is total; `outOfFuel` is a
model artifact, never the behaviour of the source. -/
inductive Outcome : Type where
  | finished (result : Bool × Obj) : Outcome
  | raised (e : Obj) : Outcome
  | outOfFuel : Outcome
  deriving Repr

/-- Modelled from the spec: the trampoline loop (see `Outcome`). -/
def run : Nat → Task → Outcome
  | 0, _ => .outOfFuel
  | fuel + 1, t =>
    match step t with
    | .next t2 => run fuel t2
    | .finished r => .finished r
    | .raised e => .raised e

/-- The initial step of `perform(effect)`: `trampoline(_perform, effect)`
with `_perform` reading `effect.intent` and `effect.callbacks`. -/
def initialTask (eff : Obj) : Task :=
  .perf (intentOf eff) (callbacksOf eff)

/-- Observable outcome of a call to `perform(effect)` (source lines
198-231): the function always returns `None` when the trampoline loop
ends ("this function does _not_ return the final result of the effect"),
or propagates an exception raised by a step. -/
inductive PerformResult : Type where
  | returnedNone : PerformResult
  | raised (e : Obj) : PerformResult
  | outOfFuel : PerformResult
  deriving Repr

/-- `perform(effect, default_dispatcher)`: run the trampoline from the
initial `_perform` step; the terminal chain result, if any, is discarded
and `None` is returned. -/
def perform (fuel : Nat) (eff : Obj) : PerformResult :=
  match run fuel (initialTask eff) with
  | .finished _ => .returnedNone
  | .raised e => .raised e
  | .outOfFuel => .outOfFuel

/-- Ghost observation: the callback invoked by one `_run_callbacks` step,
if any (the entry's continuation selected by the failure tag, when the
value is not spliced and the continuation is present). -/
def invoked : Task → List Obj
  | .runCbs chain result =>
    if isExactEffect result.2 then []
    else
      match chain with
      | [] => []
      | entry :: _ =>
        match (if result.1 then entry.2 else entry.1) with
        | some cb => [cb]
        | none => []
  | _ => []

/-- Ghost observation: the sequence of callbacks invoked, in order, during
a trampoline run. -/
def runTrace : Nat → Task → List Obj
  | 0, _ => []
  | fuel + 1, t =>
    invoked t ++
      match step t with
      | .next t2 => runTrace fuel t2
      | _ => []

/-- Number of required positional parameters of
`dispatch_method(intent, dispatcher, box)` (src/effect/__init__.py
line 147). -/
def dispatch_method_param_count : Nat := 3

/-- Number of arguments supplied by the call
`dispatch_method(intent, twisted_dispatcher)` in `twisted_dispatcher`
(src/effect/twisted.py line 43). -/
def twisted_call_arg_count : Nat := 2

/-- Python call semantics for the expression
`dispatch_method(intent, twisted_dispatcher)` (src/effect/twisted.py
line 43): the callee requires three positional arguments and receives
two, so the call raises `TypeError` before the callee's body runs; in
particular the intent's `perform_effect` is never invoked. -/
def call_dispatch_method_2args (intent : Obj) : Except Obj Obj :=
  if twisted_call_arg_count = dispatch_method_param_count then
    -- dead branch: the arities differ, so the body never runs
    .ok intent
  else
    .error .typeError

/-- What one call of `twisted_dispatcher(intent, box)` does, abstracted
over the box: delegate a `ParallelEffects` intent to `perform_parallel`
(Deferred-based; outside this model), or invoke exactly one of
`box.fail` / `box.succeed`. (`deferred_to_box` bridging of a returned
Deferred is unreachable in the model: no Deferred values exist and the
guarded call always raises.) -/
inductive TwistedStep : Type where
  | delegatedParallel (effects : List Obj) : TwistedStep
  | boxSucceeded (result : Obj) : TwistedStep
  | boxFailed (excinfo : Obj) : TwistedStep
  deriving Repr

/-- `twisted_dispatcher(intent, box)` (src/effect/twisted.py lines
34-50): a `ParallelEffects` intent (exact type test) is handed to
`perform_parallel`; any other intent is dispatched by evaluating
`dispatch_method(intent, twisted_dispatcher)` inside `try:` — on an
exception the bare `except:` runs `box.fail(sys.exc_info())`, and on a
normal return the result is delivered via `box.succeed` (or Deferred
bridging, unreachable here). -/
def twisted_dispatcher (intent : Obj) : TwistedStep :=
  match intent with
  | .parallelEffects effs => .delegatedParallel effs
  | _ =>
    match call_dispatch_method_2args intent with
    | .error e => .boxFailed (.excInfo e)
    | .ok result => .boxSucceeded result

/-- The callback chain of the spec's stack-boundedness test: `n`
success-only entries, each adding 1 to an integer. -/
def incrChain (n : Nat) : List CbPair :=
  List.replicate n (some (.cbAddInt 1), none)

/-- The Effect of the spec's stack-boundedness test: an intent succeeding
with `0`, followed by `incrChain n`. -/
def chainEff (n : Nat) : Obj :=
  .effect (.perfSucceed (.int 0)) (incrChain n)

/-- Intent of a nested-Effect tower: at depth `0` succeed with `7`; at
depth `n+1` succeed with the Effect one level down, so each resolution
splices another Effect. -/
def deepIntent : Nat → Obj
  | 0 => .perfSucceed (.int 7)
  | n + 1 => .perfSucceed (.effect (deepIntent n) [])

/-- The nested-Effect tower of depth `n` (no callbacks at any level). -/
def deepEff (n : Nat) : Obj :=
  .effect (deepIntent n) []

/-- A labelled continuation: returns the inert object `plain k`, so
distinct labels give observably distinct callbacks and results. -/
def labelCb (k : Nat) : Obj :=
  .cbConst (.plain k)

/-- A success-only callback chain carrying the given labels. -/
def mkChain (ls : List Nat) : List CbPair :=
  ls.map fun k => (some (labelCb k), none)

/-- The value held by the chain walk after traversing `mkChain ls`
starting from value `v`: `v` itself if `ls` is empty, otherwise `plain
k` for the last label `k`. -/
def finalVal : List Nat → Obj → Obj
  | [], v => v
  | k :: ls, _ => finalVal ls (.plain k)

/-- The inner Effect `E'` of the flattening scenario: an intent
succeeding with `plain v1`, carrying the labelled chain `D1..Dm =
mkChain inner`. -/
def spliceInner (v1 : Nat) (inner : List Nat) : Obj :=
  .effect (.perfSucceed (.plain v1)) (mkChain inner)

/-- The outer Effect of the flattening scenario: continuations
`C1..C_i..Cn` where the prefix `C1..C_(i-1) = mkChain pre` and the
suffix `C_(i+1)..Cn = mkChain post` are labelled continuations, and
`C_i` returns the inner Effect `spliceInner v1 inner`. -/
def spliceOuter (v0 v1 : Nat) (pre inner post : List Nat) : Obj :=
  .effect (.perfSucceed (.plain v0))
    (mkChain pre ++ ([(some (.cbConst (spliceInner v1 inner)), none)]
      ++ mkChain post))

/-- C8: every chain-extension operation (`on`, `on_success`, `on_error`,
`after`) returns a new Effect sharing the intent of the original, with
the original chain extended by exactly one entry. The original Effect is
untouched: as in the source, `on` builds a fresh object through
`Effect.with_callbacks` from `self.callbacks + [(success, error)]`, and
the model (like the combinators in the source) performs no mutation. -/
theorem C8_chain_extension (i : Obj) (cbs : List CbPair)
    (s f : Option Obj) (cb : Obj) :
    Effect.on_ (.effect i cbs) s f = .effect i (cbs ++ [(s, f)])
    ∧ Effect.on_success (.effect i cbs) cb = .effect i (cbs ++ [(some cb, none)])
    ∧ Effect.on_error (.effect i cbs) cb = .effect i (cbs ++ [(none, some cb)])
    ∧ Effect.after (.effect i cbs) cb = .effect i (cbs ++ [(some cb, some cb)]) :=
  ⟨rfl, rfl, rfl, rfl⟩

/-- C9: `after(f)` is exactly `on(success=f, error=f)` — one entry with
the same continuation on both sides (source lines 112-117). -/
theorem C9_after_via_on (e cb : Obj) :
    Effect.after e cb = Effect.on_ e (some cb) (some cb) :=
  rfl

/-- C10: the splice test `type(value) is Effect` is applied to the
incoming result before any entry is selected. Conjuncts: (1) a value of
exact type `Effect` is spliced whatever the failure tag and whatever the
chain (even empty), re-performing `Effect.with_callbacks(value.intent,
value.callbacks + chain)`; (2) an instance of a proper subclass of
`Effect` is not spliced — with an empty chain it is the terminal result
unchanged, and (3) with a continuation present it is handed to that
continuation as a plain value; (4,5) the initial value a dispatcher
passes to `box.succeed` or `box.fail`, before any continuation has run,
goes through the same test: a boxed exact `Effect` is spliced. -/
theorem C10_exact_type_splice :
    (∀ (is_error : Bool) (i : Obj) (cbs chain : List CbPair),
      run_callbacks chain (is_error, .effect i cbs)
        = .next (.perf i (cbs ++ chain)))
    ∧ (∀ (is_error : Bool) (i : Obj) (cbs : List CbPair),
      run_callbacks [] (is_error, .effectSub i cbs)
        = .finished (is_error, .effectSub i cbs))
    ∧ (∀ (i : Obj) (cbs rest : List CbPair) (v : Obj) (f : Option Obj),
      run_callbacks ((some (.cbConst v), f) :: rest) (false, .effectSub i cbs)
        = .next (.runCbs rest (false, v)))
    ∧ (∀ (i : Obj) (cbs chain : List CbPair) (fuel : Nat),
      run (fuel + 2) (.perf (.perfSucceed (.effect i cbs)) chain)
        = run fuel (.perf i (cbs ++ chain)))
    ∧ (∀ (i : Obj) (cbs chain : List CbPair) (fuel : Nat),
      run (fuel + 2) (.perf (.perfFail (.effect i cbs)) chain)
        = run fuel (.perf i (cbs ++ chain))) := by
  refine ⟨?_, ?_, ?_, ?_, ?_⟩ <;> intros <;> rfl

/-- C6: when the chain entry's continuation matching the result's
failure tag is absent (`None`), the result — provided it is not an exact
`Effect`, which would be spliced before entry selection — passes through
to the next entry unchanged, tag included (source lines 218-222: `cb` is
`None`, so `result` is bounced on unmodified). -/
theorem C6_passthrough (is_error : Bool) (value : Obj) (s f : Option Obj)
    (rest : List CbPair) (hv : isExactEffect value = false)
    (hcb : (if is_error then f else s) = none) :
    run_callbacks ((s, f) :: rest) (is_error, value)
      = .next (.runCbs rest (is_error, value)) := by
  unfold run_callbacks
  simp [hv, hcb]

/-- Witness for C6: a successful result (`5`) passes an
`on_error`-attached entry `(None, cbId)` unchanged and still successful. -/
theorem C6_passthrough_witness :
    run_callbacks [(none, some Obj.cbId)] (false, Obj.int 5)
      = .next (.runCbs [] (false, Obj.int 5)) :=
  C6_passthrough false (Obj.int 5) none (some Obj.cbId) [] rfl rfl

/-- C7: an invoked continuation runs under `_guard` (source line 220),
and the result handed to the next chain entry is `_guard`'s output: a
raise becomes `(True, exc_info(e))` — a failure carrying the exception —
and a normal return `v` becomes `(False, v)`. -/
theorem C7_guard_capture (is_error : Bool) (value : Obj) (s f : Option Obj)
    (rest : List CbPair) (cb : Obj) (hv : isExactEffect value = false)
    (hcb : (if is_error then f else s) = some cb) :
    run_callbacks ((s, f) :: rest) (is_error, value)
      = .next (.runCbs rest (_guard cb value))
    ∧ (∀ e, _guard (.cbRaise e) value = (true, .excInfo e))
    ∧ (∀ v, _guard (.cbConst v) value = (false, v))
    ∧ (∀ n m, _guard (.cbAddInt n) (.int m) = (false, .int (m + n))) := by
  refine ⟨?_, fun e => rfl, fun v => rfl, fun n m => rfl⟩
  unfold run_callbacks
  simp [hv, hcb]

/-- Witness for C7: a raising continuation at a success entry produces
the failure `(True, exc_info(userError 3))` for the next entry. -/
theorem C7_guard_capture_witness :
    run_callbacks [(some (Obj.cbRaise (Obj.userError 3)), none)] (false, Obj.int 5)
      = .next (.runCbs [] (_guard (Obj.cbRaise (Obj.userError 3)) (Obj.int 5)))
    ∧ _guard (Obj.cbRaise (Obj.userError 3)) (Obj.int 5)
      = (true, .excInfo (.userError 3)) :=
  ⟨(C7_guard_capture false (Obj.int 5) (some (.cbRaise (.userError 3))) none []
      (.cbRaise (.userError 3)) rfl rfl).1, rfl⟩

/-- C1 counterexample: performing `Effect(plain 3).on_error(const 42)`
with the default dispatcher does not deliver a "no handler" failure into
the callback chain through the box: `dispatch_method` raises
`NoEffectHandlerError(plain 3)` (src/effect/__init__.py line 150)
without touching the box, the exception propagates out of `perform`, the
attached error continuation is never invoked (empty invocation trace),
and the terminal outcome is not the continuation's return value. -/
theorem C1_counterexample :
    perform 5 (Effect.on_error (.effect (.plain 3) []) (.cbConst (.int 42)))
      = .raised (.noEffectHandlerError (.plain 3))
    ∧ runTrace 5
        (initialTask (Effect.on_error (.effect (.plain 3) []) (.cbConst (.int 42))))
      = []
    ∧ perform 5 (Effect.on_error (.effect (.plain 3) []) (.cbConst (.int 42)))
      ≠ .returnedNone := by
  refine ⟨rfl, rfl, ?_⟩
  intro h
  have h2 : PerformResult.raised (.noEffectHandlerError (.plain 3))
      = PerformResult.returnedNone := h
  exact PerformResult.noConfusion h2

/-- C1 amended: for every intent lacking `perform_effect`, performing
with the default dispatcher raises `NoEffectHandlerError` naming that
intent out of the `perform` call itself; the failure is never delivered
through the box, and no continuation of the chain — error handler or
otherwise — is invoked. -/
theorem C1_amended_theorem (intent : Obj) (chain : List CbPair) (fuel : Nat)
    (h : hasPerformEffect intent = false) :
    perform (fuel + 1) (.effect intent chain)
      = .raised (.noEffectHandlerError intent)
    ∧ runTrace (fuel + 1) (.perf intent chain) = [] := by
  have hstep : step (.perf intent chain)
      = .raised (.noEffectHandlerError intent) := by
    unfold step default_dispatcher dispatch_method
    simp [h]
  have hrun : run (fuel + 1) (.perf intent chain)
      = .raised (.noEffectHandlerError intent) := by
    simp only [run]
    rw [hstep]
  constructor
  · unfold perform
    have hinit : initialTask (.effect intent chain) = .perf intent chain := rfl
    rw [hinit, hrun]
  · simp only [runTrace]
    rw [hstep]
    rfl

/-- Witness for the amended C1 at `intent = plain 0`, empty chain. -/
theorem C1_amended_witness :
    perform 1 (.effect (.plain 0) []) = .raised (.noEffectHandlerError (.plain 0))
    ∧ runTrace 1 (.perf (.plain 0) []) = [] :=
  C1_amended_theorem (.plain 0) [] 0 rfl

/-- An unintercepted failure walks the whole chain unchanged: entries
whose error slot is `None` pass it through, and when the chain is
exhausted `_run_callbacks` simply returns, holding the failure as its
final (discarded) result. -/
theorem run_fail_passthrough (einfo : Obj) (chain : List CbPair)
    (hv : isExactEffect einfo = false)
    (h : ∀ p ∈ chain, p.2 = none) :
    run (chain.length + 1) (.runCbs chain (true, einfo))
      = .finished (true, einfo) := by
  induction chain with
  | nil =>
    simp only [run, step, run_callbacks, hv]
    rfl
  | cons entry rest ih =>
    have h2 : entry.2 = none := h entry (List.mem_cons_self ..)
    have hstep : step (.runCbs (entry :: rest) (true, einfo))
        = .next (.runCbs rest (true, einfo)) := by
      unfold step run_callbacks
      simp [hv, h2]
    have hlen : (entry :: rest).length + 1 = (rest.length + 1) + 1 := by
      simp [List.length_cons]
    rw [hlen]
    simp only [run]
    rw [hstep]
    exact ih fun p hp => h p (List.mem_cons_of_mem _ hp)

/-- C2 counterexample: an Effect whose performer fails the box, with an
empty chain: the failure reaches the end of the chain unintercepted (the
chain walk terminates holding `(True, exc_info(userError 7))`), yet
`perform` completes normally and returns `None` — the failure is neither
re-raised nor delivered to any caller-visible channel by the core. -/
theorem C2_counterexample :
    run 2 (initialTask (.effect (.perfFail (.excInfo (.userError 7))) []))
      = .finished (true, .excInfo (.userError 7))
    ∧ perform 2 (.effect (.perfFail (.excInfo (.userError 7))) [])
      = .returnedNone
    ∧ perform 2 (.effect (.perfFail (.excInfo (.userError 7))) [])
      ≠ .raised (.excInfo (.userError 7)) := by
  refine ⟨rfl, rfl, ?_⟩
  intro h
  have h2 : PerformResult.returnedNone
      = PerformResult.raised (.excInfo (.userError 7)) := h
  exact PerformResult.noConfusion h2

/-- C2 amended: a failure that reaches the end of the chain with no
error continuation having handled it is the final value of the internal
chain walk, intact and tagged as a failure — but the core `perform`
discards it and returns `None`; surfacing the terminal outcome is left
to continuations the caller appends to the chain (as
`effect.twisted.perform` does with its Deferred), not done by the core. -/
theorem C2_amended_theorem (e : Obj) (chain : List CbPair)
    (h : ∀ p ∈ chain, p.2 = none) :
    run (chain.length + 2) (initialTask (.effect (.perfFail (.excInfo e)) chain))
      = .finished (true, .excInfo e)
    ∧ perform (chain.length + 2) (.effect (.perfFail (.excInfo e)) chain)
      = .returnedNone := by
  have h1 : run (chain.length + 2)
        (initialTask (.effect (.perfFail (.excInfo e)) chain))
      = run (chain.length + 1) (.runCbs chain (true, .excInfo e)) := rfl
  have h2 := run_fail_passthrough (.excInfo e) chain rfl h
  refine ⟨h1.trans h2, ?_⟩
  unfold perform
  rw [h1.trans h2]

/-- Witness for the amended C2: one success-only entry; the failure
passes it and is dropped by `perform`. -/
theorem C2_amended_witness :
    run 3 (initialTask
        (.effect (.perfFail (.excInfo (.userError 7))) [(some .cbId, none)]))
      = .finished (true, .excInfo (.userError 7))
    ∧ perform 3 (.effect (.perfFail (.excInfo (.userError 7))) [(some .cbId, none)])
      = .returnedNone :=
  C2_amended_theorem (.userError 7) [(some .cbId, none)] (by simp)

/-- C5 (evidence of a code bug): for an intent that is not
`ParallelEffects` and does expose `perform_effect` — here a performer
whose `perform_effect` would call `box.succeed(42)` —
`twisted_dispatcher` does not fall back to the default dispatch
behaviour. The call `dispatch_method(intent, twisted_dispatcher)`
supplies two arguments to a three-parameter function, so it raises
`TypeError` before any dispatching happens; the bare `except:` catches
it and fails the box with that `TypeError`. The performable is never
invoked and `box.succeed(42)` never happens. -/
theorem C5_twisted_bug :
    hasPerformEffect (.perfSucceed (.int 42)) = true
    ∧ twisted_dispatcher (.perfSucceed (.int 42))
      = .boxFailed (.excInfo .typeError)
    ∧ twisted_dispatcher (.perfSucceed (.int 42))
      ≠ .boxSucceeded (.int 42) := by
  refine ⟨rfl, rfl, ?_⟩
  intro h
  have h2 : TwistedStep.boxFailed (.excInfo .typeError)
      = TwistedStep.boxSucceeded (.int 42) := h
  exact TwistedStep.noConfusion h2

/-- Walking `incrChain n` from `(False, m)` takes one trampoline step per
entry plus one final step, and yields `m + n`. -/
theorem run_incr_chain (n : Nat) (m : Int) :
    run (n + 1) (.runCbs (incrChain n) (false, .int m))
      = .finished (false, .int (m + n)) := by
  induction n generalizing m with
  | zero =>
    have h1 : run 1 (.runCbs (incrChain 0) (false, .int m))
        = .finished (false, .int m) := rfl
    rw [h1]
    norm_num
  | succ k ih =>
    have hstep : step (.runCbs (incrChain (k + 1)) (false, .int m))
        = .next (.runCbs (incrChain k) (false, .int (m + 1))) := rfl
    have h1 : run (k + 1 + 1) (.runCbs (incrChain (k + 1)) (false, .int m))
        = run (k + 1) (.runCbs (incrChain k) (false, .int (m + 1))) := by
      simp only [run]
      rw [hstep]
    rw [h1, ih (m + 1)]
    have h2 : m + 1 + (k : Int) = m + ((k : Int) + 1) := by ring
    rw [h2]
    norm_num

/-- C4: the engine is an iterative loop over bounced steps (the
spec-modelled trampoline `run`): every transition — box resolution, each
chain entry, each splice re-perform — is one application of `step`, so
the run never nests engine calls and its stack use is a constant
independent of the chain length or the effect nesting depth. Conjunct 1:
a chain of `n` synchronous success continuations, each adding 1 starting
from 0, completes within `n + 2` steps and yields `n`; conjunct 2
instantiates it at the spec's 100,000; conjunct 3: a tower of `n` nested
Effects, each resolved by splicing the next, completes within `2n + 2`
steps. -/
theorem C4_stack_bounded :
    (∀ n : Nat, run (n + 2) (initialTask (chainEff n))
      = .finished (false, .int n))
    ∧ run 100002 (initialTask (chainEff 100000))
      = .finished (false, .int 100000)
    ∧ (∀ n : Nat, run (2 * n + 2) (initialTask (deepEff n))
      = .finished (false, .int 7)) := by
  have hchain : ∀ n : Nat, run (n + 2) (initialTask (chainEff n))
      = .finished (false, .int n) := by
    intro n
    have h1 : run (n + 2) (initialTask (chainEff n))
        = run (n + 1) (.runCbs (incrChain n) (false, .int 0)) := rfl
    rw [h1, run_incr_chain n 0]
    norm_num
  have hdeep : ∀ n : Nat, run (2 * n + 2) (initialTask (deepEff n))
      = .finished (false, .int 7) := by
    intro n
    induction n with
    | zero => rfl
    | succ k ih =>
      have h1 : run (2 * (k + 1) + 2) (initialTask (deepEff (k + 1)))
          = run (2 * k + 2) (initialTask (deepEff k)) := rfl
      rw [h1, ih]
  exact ⟨hchain, hchain 100000, hdeep⟩

/-- `finalVal` never produces an exact `Effect` from a non-`Effect`
start. -/
theorem finalVal_not_effect (ls : List Nat) (v : Obj)
    (hv : isExactEffect v = false) :
    isExactEffect (finalVal ls v) = false := by
  induction ls generalizing v with
  | nil => exact hv
  | cons k ls ih =>
    show isExactEffect (finalVal ls (.plain k)) = false
    exact ih (.plain k) rfl

/-- One step through the head of a labelled success chain: the labelled
continuation is invoked on the (non-Effect) value and replaces it with
its label's inert object. -/
theorem step_mkChain_cons (k : Nat) (ls : List Nat) (rest : List CbPair)
    (v : Obj) (hv : isExactEffect v = false) :
    step (.runCbs (mkChain (k :: ls) ++ rest) (false, v))
      = .next (.runCbs (mkChain ls ++ rest) (false, .plain k)) := by
  unfold step run_callbacks
  simp [mkChain, hv, labelCb, _guard]

/-- The invocation trace of walking a labelled success chain is the
labels' callbacks in order, followed by whatever the rest of the walk
records. -/
theorem runTrace_walk (ls : List Nat) (rest : List CbPair) (v : Obj)
    (fuel : Nat) (hv : isExactEffect v = false) :
    runTrace (ls.length + fuel) (.runCbs (mkChain ls ++ rest) (false, v))
      = ls.map labelCb ++ runTrace fuel (.runCbs rest (false, finalVal ls v)) := by
  induction ls generalizing v with
  | nil => simp [mkChain, finalVal]
  | cons k ls ih =>
    have hinv : invoked (.runCbs (mkChain (k :: ls) ++ rest) (false, v))
        = [labelCb k] := by
      unfold invoked
      simp [mkChain, hv]
    have hlen : (k :: ls).length + fuel = (ls.length + fuel) + 1 := by
      simp only [List.length_cons]
      omega
    rw [hlen]
    simp only [runTrace]
    rw [step_mkChain_cons k ls rest v hv, hinv]
    dsimp only
    rw [ih (.plain k) rfl]
    simp [finalVal]

/-- Outcome analog of `runTrace_walk`: walking a labelled success chain
consumes one fuel unit per entry and continues on the rest with the
final value. -/
theorem run_walk (ls : List Nat) (rest : List CbPair) (v : Obj)
    (fuel : Nat) (hv : isExactEffect v = false) :
    run (ls.length + fuel) (.runCbs (mkChain ls ++ rest) (false, v))
      = run fuel (.runCbs rest (false, finalVal ls v)) := by
  induction ls generalizing v with
  | nil => simp [mkChain, finalVal]
  | cons k ls ih =>
    have hlen : (k :: ls).length + fuel = (ls.length + fuel) + 1 := by
      simp only [List.length_cons]
      omega
    rw [hlen]
    simp only [run]
    rw [step_mkChain_cons k ls rest v hv]
    dsimp only
    rw [ih (.plain k) rfl]
    simp [finalVal]

/-- C3: the flattening rule. Conjunct 1: when the result value is the
inner Effect `E' = spliceInner v1 inner` and the remaining outer chain
is `mkChain post`, the engine bounces `_perform` on the spliced Effect
whose intent is `E'.intent` and whose chain is `E'`'s own entries
followed by the remaining outer entries (source lines 211-215).
Conjunct 2: over a full run of the outer Effect — prefix continuations
`C1..C_(i-1)` labelled by `pre`, `C_i` returning `E'`, suffix
`C_(i+1)..Cn` labelled by `post` — the observed continuation invocation
order is exactly `C1..C_i, D1..Dm, C_(i+1)..Cn`. Conjunct 3: that run
terminates with the value produced by the last continuation. -/
theorem C3_flattening (pre inner post : List Nat) (v0 v1 : Nat) :
    run_callbacks (mkChain post) (false, spliceInner v1 inner)
      = .next (.perf (.perfSucceed (.plain v1)) (mkChain inner ++ mkChain post))
    ∧ runTrace (pre.length + inner.length + post.length + 5)
        (initialTask (spliceOuter v0 v1 pre inner post))
      = pre.map labelCb ++ [Obj.cbConst (spliceInner v1 inner)]
        ++ inner.map labelCb ++ post.map labelCb
    ∧ run (pre.length + inner.length + post.length + 5)
        (initialTask (spliceOuter v0 v1 pre inner post))
      = .finished (false, finalVal post (finalVal inner (.plain v1))) := by
  have hw : isExactEffect (finalVal pre (.plain v0)) = false :=
    finalVal_not_effect pre (.plain v0) rfl
  have hw1 : isExactEffect (finalVal inner (.plain v1)) = false :=
    finalVal_not_effect inner (.plain v1) rfl
  have hw2 : isExactEffect (finalVal post (finalVal inner (.plain v1))) = false :=
    finalVal_not_effect post (finalVal inner (.plain v1)) hw1
  have hstepCi : step (.runCbs
        ((some (.cbConst (spliceInner v1 inner)), none) :: mkChain post)
        (false, finalVal pre (.plain v0)))
      = .next (.runCbs (mkChain post) (false, spliceInner v1 inner)) := by
    unfold step run_callbacks
    simp [hw, _guard]
  have hstepEnd : step (.runCbs [] (false, finalVal post (finalVal inner (.plain v1))))
      = .finished (false, finalVal post (finalVal inner (.plain v1))) := by
    unfold step run_callbacks
    simp [hw2]
  refine ⟨rfl, ?_, ?_⟩
  · have e1 : runTrace (pre.length + (inner.length + post.length + 4) + 1)
          (initialTask (spliceOuter v0 v1 pre inner post))
        = runTrace (pre.length + (inner.length + post.length + 4))
            (.runCbs (mkChain pre
                ++ ((some (.cbConst (spliceInner v1 inner)), none) :: mkChain post))
              (false, .plain v0)) := rfl
    have e2 := runTrace_walk pre
      ((some (.cbConst (spliceInner v1 inner)), none) :: mkChain post)
      (.plain v0) (inner.length + post.length + 4) rfl
    have e3 : runTrace (inner.length + post.length + 4)
          (.runCbs ((some (.cbConst (spliceInner v1 inner)), none) :: mkChain post)
            (false, finalVal pre (.plain v0)))
        = Obj.cbConst (spliceInner v1 inner)
            :: runTrace (inner.length + post.length + 3)
                (.runCbs (mkChain post) (false, spliceInner v1 inner)) := by
      have hinv : invoked (.runCbs
            ((some (.cbConst (spliceInner v1 inner)), none) :: mkChain post)
            (false, finalVal pre (.plain v0)))
          = [Obj.cbConst (spliceInner v1 inner)] := by
        unfold invoked
        simp [hw]
      rw [show inner.length + post.length + 4
          = (inner.length + post.length + 3) + 1 from by omega]
      simp only [runTrace]
      rw [hstepCi, hinv]
      rfl
    have e4 : runTrace (inner.length + post.length + 3)
          (.runCbs (mkChain post) (false, spliceInner v1 inner))
        = runTrace (inner.length + post.length + 2)
            (.perf (.perfSucceed (.plain v1)) (mkChain inner ++ mkChain post)) := by
      rw [show inner.length + post.length + 3
          = (inner.length + post.length + 2) + 1 from by omega]
      rfl
    have e5 : runTrace (inner.length + post.length + 2)
          (.perf (.perfSucceed (.plain v1)) (mkChain inner ++ mkChain post))
        = runTrace (inner.length + (post.length + 1))
            (.runCbs (mkChain inner ++ mkChain post) (false, .plain v1)) := by
      rw [show inner.length + post.length + 2
          = (inner.length + (post.length + 1)) + 1 from by omega]
      rfl
    have e6 := runTrace_walk inner (mkChain post) (.plain v1) (post.length + 1) rfl
    have e7 : runTrace (post.length + 1)
          (.runCbs (mkChain post) (false, finalVal inner (.plain v1)))
        = runTrace (post.length + 1)
            (.runCbs (mkChain post ++ []) (false, finalVal inner (.plain v1))) := by
      rw [List.append_nil]
    have e8 := runTrace_walk post [] (finalVal inner (.plain v1)) 1 hw1
    have e9 : runTrace 1
          (.runCbs [] (false, finalVal post (finalVal inner (.plain v1)))) = [] := by
      have hinv : invoked (.runCbs []
            (false, finalVal post (finalVal inner (.plain v1)))) = [] := by
        unfold invoked
        simp [hw2]
      simp only [runTrace]
      rw [hstepEnd, hinv]
      rfl
    rw [show pre.length + inner.length + post.length + 5
        = pre.length + (inner.length + post.length + 4) + 1 from by omega]
    rw [e1, e2, e3, e4, e5, e6, e7, e8, e9]
    simp
  · have f1 : run (pre.length + (inner.length + post.length + 4) + 1)
          (initialTask (spliceOuter v0 v1 pre inner post))
        = run (pre.length + (inner.length + post.length + 4))
            (.runCbs (mkChain pre
                ++ ((some (.cbConst (spliceInner v1 inner)), none) :: mkChain post))
              (false, .plain v0)) := rfl
    have f2 := run_walk pre
      ((some (.cbConst (spliceInner v1 inner)), none) :: mkChain post)
      (.plain v0) (inner.length + post.length + 4) rfl
    have f3 : run (inner.length + post.length + 4)
          (.runCbs ((some (.cbConst (spliceInner v1 inner)), none) :: mkChain post)
            (false, finalVal pre (.plain v0)))
        = run (inner.length + post.length + 3)
            (.runCbs (mkChain post) (false, spliceInner v1 inner)) := by
      rw [show inner.length + post.length + 4
          = (inner.length + post.length + 3) + 1 from by omega]
      simp only [run]
      rw [hstepCi]
    have f4 : run (inner.length + post.length + 3)
          (.runCbs (mkChain post) (false, spliceInner v1 inner))
        = run (inner.length + post.length + 2)
            (.perf (.perfSucceed (.plain v1)) (mkChain inner ++ mkChain post)) := by
      rw [show inner.length + post.length + 3
          = (inner.length + post.length + 2) + 1 from by omega]
      rfl
    have f5 : run (inner.length + post.length + 2)
          (.perf (.perfSucceed (.plain v1)) (mkChain inner ++ mkChain post))
        = run (inner.length + (post.length + 1))
            (.runCbs (mkChain inner ++ mkChain post) (false, .plain v1)) := by
      rw [show inner.length + post.length + 2
          = (inner.length + (post.length + 1)) + 1 from by omega]
      rfl
    have f6 := run_walk inner (mkChain post) (.plain v1) (post.length + 1) rfl
    have f7 : run (post.length + 1)
          (.runCbs (mkChain post) (false, finalVal inner (.plain v1)))
        = run (post.length + 1)
            (.runCbs (mkChain post ++ []) (false, finalVal inner (.plain v1))) := by
      rw [List.append_nil]
    have f8 := run_walk post [] (finalVal inner (.plain v1)) 1 hw1
    have f9 : run 1
          (.runCbs [] (false, finalVal post (finalVal inner (.plain v1))))
        = .finished (false, finalVal post (finalVal inner (.plain v1))) := by
      simp only [run]
      rw [hstepEnd]
    rw [show pre.length + inner.length + post.length + 5
        = pre.length + (inner.length + post.length + 4) + 1 from by omega]
    rw [f1, f2, f3, f4, f5, f6, f7, f8, f9]

end EffectSpec
